import Mathlib

/-!
Verification of the news-aggregator core (main.go) against its
natural-language specification.

The Go program periodically fetches HTML pages, extracts (link, title)
pairs with XPath rules, resolves links to absolute URLs, stores them in a
SQLite table keyed uniquely by link, and serves a substring-search
endpoint.  The shallow embedding below translates the program's functions
into Lean definitions.  Effectful inputs (network fetch results, XPath
match results, the database table, the clock) are passed explicitly; the
SQLite table is a list of rows, and the semantics of the SQL statements
used by the program (INSERT with a UNIQUE column, SELECT with an instr
filter and ORDER BY ... DESC) is spelled out directly.
-/

namespace NewsAggregator

/-! ### List and string helpers (kernel-friendly, no iterator code) -/

/-- Characters a..z A..Z, as in net/url getScheme. -/
def isAlphaChar (c : Char) : Bool :=
  ('a' ≤ c && c ≤ 'z') || ('A' ≤ c && c ≤ 'Z')

/-- Characters 0..9. -/
def isDigitChar (c : Char) : Bool :=
  '0' ≤ c && c ≤ '9'

/-- ASCII lowercase of one character (strings.ToLower on scheme text). -/
def lowerChar (c : Char) : Char :=
  if 'A' ≤ c && c ≤ 'Z' then Char.ofNat (c.toNat + 32) else c

/-- Does the character list start with the given character? -/
def listStartsWithChar (c : Char) : List Char → Bool
  | [] => false
  | a :: _ => a == c

/-- Split a character list at every occurrence of c (strings.Split). -/
def splitOnChar (c : Char) : List Char → List (List Char)
  | [] => [[]]
  | a :: rest =>
    let r := splitOnChar c rest
    if a == c then [] :: r
    else
      match r with
      | h :: t => (a :: h) :: t
      | [] => [[a]]

/-- Cut a character list at the first occurrence of c: (before, after).
If c does not occur, after is empty (strings.Cut). -/
def cutOnChar (c : Char) : List Char → List Char × List Char
  | [] => ([], [])
  | a :: rest =>
    if a == c then ([], rest)
    else
      let r := cutOnChar c rest
      (a :: r.1, r.2)

/-- Join string pieces with "/" separators (strings.Join with "/"). -/
def joinWithSlash : List (List Char) → List Char
  | [] => []
  | [s] => s
  | s :: rest => s ++ '/' :: joinWithSlash rest

/-- Drop one leading slash if present (strings.TrimPrefix with "/"). -/
def dropLeadingSlash : List Char → List Char
  | '/' :: t => t
  | l => l

/-- The prefix of s up to and including its last slash; empty when s has
no slash (base[:strings.LastIndex(base, "/")+1]). -/
def upToLastSlash (s : List Char) : List Char :=
  ((s.reverse.dropWhile fun c => c ≠ '/').reverse)

/-- net/url rejects URLs containing ASCII control bytes. -/
def containsCtl (s : List Char) : Bool :=
  s.any fun c => c.toNat < 32 || c.toNat == 127

/-- Go %q-style quoting, modelling only the escapes that can appear in
the strings this development manipulates. -/
def goQuote (s : String) : String :=
  "\"" ++ s ++ "\""

/-! ### Model of the parts of net/url used by convertToAbsURL

The program calls url.Parse, URL.IsAbs, URL.ResolveReference and
URL.String.  The definitions below follow the algorithms of Go's
net/url (getScheme, parse, resolvePath, ResolveReference, String) for
hierarchical URLs.  Simplifications, stated once here: percent-escape
validation is omitted; userinfo is kept folded into the host string
(which reproduces String output); bracketed IPv6 hosts are rejected;
ForceQuery and OmitHost are not tracked.  None of the theorems below
depends on those corners. -/

/-- The fields of net/url.URL that the program's control flow can
observe.  opq models the Opaque field (rootless rest after a scheme). -/
structure GoURL where
  scheme : String
  opq : String
  host : String
  path : String
  rawQuery : String
  fragment : String
deriving DecidableEq

/-- net/url getScheme: scan for a scheme terminated by a colon.  A colon
first thing is the "missing protocol scheme" error; a character that is
legal in no scheme means the URL is scheme-less. -/
def getSchemeGo (orig : List Char) : Nat → List Char → Except String (List Char × List Char)
  | _, [] => .ok ([], orig)
  | i, c :: rest =>
    if isAlphaChar c then getSchemeGo orig (i + 1) rest
    else if isDigitChar c || c == '+' || c == '-' || c == '.' then
      if i == 0 then .ok ([], orig) else getSchemeGo orig (i + 1) rest
    else if c == ':' then
      if i == 0 then .error "missing protocol scheme"
      else .ok (orig.take i, rest)
    else .ok ([], orig)

/-- Entry point for the scheme scan. -/
def getScheme (raw : List Char) : Except String (List Char × List Char) :=
  getSchemeGo raw 0 raw

/-- net/url validOptionalPort: after the last colon of a host only
digits may follow. -/
def validPortSuffix : List Char → Bool
  | [] => true
  | ':' :: digits => digits.all isDigitChar
  | _ => false

/-- Port text after the last colon of a host, including the colon. -/
def hostPortPart (h : List Char) : List Char :=
  let afterLast := (h.reverse.takeWhile fun c => c ≠ ':').reverse
  if afterLast.length == h.length then []
  else ':' :: afterLast

/-- net/url parseAuthority/parseHost, reduced to the checks that decide
success for the hosts this program meets: bracketed hosts are out of
scope and a colon must introduce a numeric port. -/
def parseAuthority (authority : List Char) : Except String (List Char) :=
  if authority.contains '[' || authority.contains ']' then
    .error "unsupported host form"
  else
    let hostOnly := (cutOnChar '@' authority.reverse).1.reverse
    let hostPart := if authority.contains '@' then hostOnly else authority
    if validPortSuffix (hostPortPart hostPart) then .ok authority
    else .error ("invalid port " ++ goQuote ⟨hostPortPart hostPart⟩ ++ " after host")

/-- net/url parse (viaRequest = false), without the fragment that Parse
has already cut off. -/
def parseNoFrag (raw : List Char) : Except String GoURL :=
  if containsCtl raw then .error "net/url: invalid control character in URL" else
  if raw == ['*'] then .ok ⟨"", "", "", "*", "", ""⟩ else
  match getScheme raw with
  | .error e => .error e
  | .ok (schemeChars, afterScheme) =>
    let scheme : String := ⟨schemeChars.map lowerChar⟩
    let restQuery := cutOnChar '?' afterScheme
    let rest := restQuery.1
    let rawQuery : String := ⟨restQuery.2⟩
    if !listStartsWithChar '/' rest && scheme ≠ "" then
      .ok ⟨scheme, ⟨rest⟩, "", "", rawQuery, ""⟩
    else if !listStartsWithChar '/' rest && scheme = "" &&
        (cutOnChar '/' rest).1.contains ':' then
      .error "first path segment in URL cannot contain colon"
    else if (scheme ≠ "" || !(rest.take 3 == ['/', '/', '/'])) &&
        rest.take 2 == ['/', '/'] then
      let authRest := cutOnChar '/' (rest.drop 2)
      let authority := authRest.1
      let pathPart : List Char :=
        if (rest.drop 2).contains '/' then '/' :: authRest.2 else []
      match parseAuthority authority with
      | .error e => .error e
      | .ok hostChars => .ok ⟨scheme, "", ⟨hostChars⟩, ⟨pathPart⟩, rawQuery, ""⟩
    else
      .ok ⟨scheme, "", "", ⟨rest⟩, rawQuery, ""⟩

/-- net/url Parse: split the fragment, parse the rest, wrap errors as
the url.Error text that fmt renders. -/
def urlParse (rawURL : String) : Except String GoURL :=
  let cut := cutOnChar '#' rawURL.data
  match parseNoFrag cut.1 with
  | .error e => .error ("parse " ++ goQuote ⟨cut.1⟩ ++ ": " ++ e)
  | .ok u => .ok { u with fragment := ⟨cut.2⟩ }

/-- net/url URL.IsAbs. -/
def GoURL.isAbs (u : GoURL) : Bool :=
  u.scheme != ""

/-- net/url resolvePath: merge a reference path onto a base path and
remove dot segments, always producing a rooted path. -/
def resolvePath (base ref : String) : String :=
  let full : List Char :=
    if ref = "" then base.data
    else if listStartsWithChar '/' ref.data then ref.data
    else upToLastSlash base.data ++ ref.data
  if full.isEmpty then ""
  else
    let src := splitOnChar '/' full
    let dst := src.foldl
      (fun acc elem =>
        if elem == ['.'] then acc
        else if elem == ['.', '.'] then acc.dropLast
        else acc ++ [elem]) ([] : List (List Char))
    let dst :=
      if src.getLast? == some ['.'] || src.getLast? == some ['.', '.'] then
        dst ++ [[]]
      else dst
    ⟨'/' :: dropLeadingSlash (joinWithSlash dst)⟩

/-- net/url URL.ResolveReference (RFC 3986 section 5.3). -/
def resolveReference (u ref : GoURL) : GoURL :=
  let r0 := { ref with scheme := if ref.scheme = "" then u.scheme else ref.scheme }
  if ref.scheme ≠ "" || ref.host ≠ "" then
    { r0 with path := resolvePath ref.path "" }
  else if ref.opq ≠ "" then
    { r0 with host := "", path := "" }
  else
    let r1 :=
      if ref.path = "" && ref.rawQuery = "" then
        { r0 with
          rawQuery := u.rawQuery,
          fragment := if ref.fragment = "" then u.fragment else ref.fragment }
      else r0
    { r1 with host := u.host, path := resolvePath u.path ref.path }

/-- net/url URL.String. -/
def urlString (u : GoURL) : String :=
  (if u.scheme ≠ "" then u.scheme ++ ":" else "")
  ++ (if u.opq ≠ "" then u.opq
      else
        (if u.scheme ≠ "" || u.host ≠ "" then "//" ++ u.host else "")
        ++ (if u.path ≠ "" && !listStartsWithChar '/' u.path.data && u.host ≠ ""
            then "/" else "")
        ++ u.path)
  ++ (if u.rawQuery ≠ "" then "?" ++ u.rawQuery else "")
  ++ (if u.fragment ≠ "" then "#" ++ u.fragment else "")

/-- main.go convertToAbsURL: parse the raw link and the base; keep an
absolute link verbatim, otherwise resolve it against the base. -/
def convertToAbsURL (baseURL linkURL : String) : Except String String :=
  match urlParse linkURL with
  | .error e => .error e
  | .ok url =>
    match urlParse baseURL with
    | .error e => .error e
    | .ok base =>
      if !url.isAbs then .ok (urlString (resolveReference base url))
      else .ok linkURL

/-! ### Data model (main.go type declarations) -/

/-- main.go ExtractRule: an XPath expression and an optional attribute
name; the Go zero value "" of Attribute means "take the inner text". -/
structure ExtractRule where
  XPathExpr : String
  Attribute : String
deriving DecidableEq

/-- main.go ParsingRule: one monitored page. -/
structure ParsingRule where
  Interval : Nat
  URL : String
  NewsNodesXPathExpr : String
  LinkRule : ExtractRule
  TitleRule : ExtractRule
deriving DecidableEq

/-- main.go NewsItem. -/
structure NewsItem where
  Link : String
  Title : String
deriving DecidableEq

/-- One row of the news table created by openDatabase: link is UNIQUE
NOT NULL and timestamp defaults to the insertion time (the firstSeen of
the spec).  The id column is not observable through any query the
program runs and is omitted. -/
structure DbRow where
  link : String
  title : String
  timestamp : Nat
deriving DecidableEq

/-- A Go slice: none models a nil slice, some models a non-nil slice
(encoding/json renders nil as null and a non-nil empty slice as []). -/
abbrev GoSlice (α : Type) : Type := Option (List α)

/-! ### JSON model and rule loading (readParsingRules)

json.Unmarshal is modelled on an already-lexed JSON document: reading
and syntax-checking the file are effects, so readParsingRules takes
none for an unreadable file and some (.error e) for content that is not
syntactically valid JSON.  Shape decoding follows encoding/json for the
target type []*ParsingRule: a missing field keeps the Go zero value, a
JSON null leaves the target untouched, a wrong-typed value is an
UnmarshalTypeError, a negative number cannot unmarshal into uint, and a
null array element leaves a nil pointer. -/

/-- A JSON document (integral numbers suffice for this rule shape; a
non-integral number in the uint field is a wrong-typed value like any
other and is represented by str here). -/
inductive Json where
  | null : Json
  | bool (b : Bool) : Json
  | num (n : Int) : Json
  | str (s : String) : Json
  | arr (elems : List Json) : Json
  | obj (fields : List (String × Json)) : Json

/-- First field with the given name (encoding/json keeps the last
duplicate, but duplicate keys do not occur in this development). -/
def jsonLookup (fields : List (String × Json)) (key : String) : Option Json :=
  (fields.find? fun f => f.1 == key).map fun f => f.2

/-- Decode a string-typed struct field. -/
def decodeStringField (fields : List (String × Json)) (key : String) : Except String String :=
  match jsonLookup fields key with
  | none => .ok ""
  | some .null => .ok ""
  | some (.str s) => .ok s
  | some _ => .error ("cannot unmarshal value into field " ++ key ++ " of type string")

/-- Decode a uint-typed struct field. -/
def decodeUintField (fields : List (String × Json)) (key : String) : Except String Nat :=
  match jsonLookup fields key with
  | none => .ok 0
  | some .null => .ok 0
  | some (.num n) =>
    if n < 0 then .error ("cannot unmarshal number " ++ toString n ++ " into field " ++ key ++ " of type uint")
    else .ok n.toNat
  | some _ => .error ("cannot unmarshal value into field " ++ key ++ " of type uint")

/-- Decode an ExtractRule value. -/
def decodeExtractRule (j : Json) : Except String ExtractRule :=
  match j with
  | .obj fs =>
    match decodeStringField fs "expr" with
    | .error e => .error e
    | .ok expr =>
      match decodeStringField fs "attr" with
      | .error e => .error e
      | .ok attr => .ok ⟨expr, attr⟩
  | _ => .error "cannot unmarshal value into Go value of type main.ExtractRule"

/-- Decode an ExtractRule-typed struct field. -/
def decodeRuleField (fields : List (String × Json)) (key : String) : Except String ExtractRule :=
  match jsonLookup fields key with
  | none => .ok ⟨"", ""⟩
  | some .null => .ok ⟨"", ""⟩
  | some j => decodeExtractRule j

/-- Decode one ParsingRule object. -/
def decodeParsingRule (j : Json) : Except String ParsingRule :=
  match j with
  | .obj fs =>
    match decodeUintField fs "intervalMinutes" with
    | .error e => .error e
    | .ok i =>
      match decodeStringField fs "url" with
      | .error e => .error e
      | .ok u =>
        match decodeStringField fs "newsNodesExpr" with
        | .error e => .error e
        | .ok nx =>
          match decodeRuleField fs "linkRule" with
          | .error e => .error e
          | .ok lr =>
            match decodeRuleField fs "titleRule" with
            | .error e => .error e
            | .ok tr => .ok ⟨i, u, nx, lr, tr⟩
  | _ => .error "cannot unmarshal value into Go value of type main.ParsingRule"

/-- Decode the whole document into []*ParsingRule; a null element is a
nil pointer (none). -/
def decodeRules (j : Json) : Except String (List (Option ParsingRule)) :=
  match j with
  | .arr es =>
    es.foldr
      (fun e acc =>
        match acc with
        | .error msg => .error msg
        | .ok rest =>
          match e with
          | .null => .ok (none :: rest)
          | _ =>
            match decodeParsingRule e with
            | .error msg => .error msg
            | .ok r => .ok (some r :: rest))
      (.ok [])
  | .null => .ok []
  | _ => .error "cannot unmarshal value into Go value of type []*main.ParsingRule"

/-- main.go readParsingRules: a ReadFile failure (none) is returned
as-is; an Unmarshal failure (syntactically bad JSON, or a shape that
does not decode) is wrapped with the "error while reading parsing
rules" prefix.  The process (Start) refuses to run when this errors. -/
def readParsingRules (file : Option (Except String Json)) : Except String (List (Option ParsingRule)) :=
  match file with
  | none => .error ("open ./rules.json: no such file or directory")
  | some (.error e) => .error ("error while reading parsing rules: " ++ e)
  | some (.ok j) =>
    match decodeRules j with
    | .error e => .error ("error while reading parsing rules: " ++ e)
    | .ok rules => .ok rules

/-- Modelled from time.NewTicker (called by updateNewsPeriodically with
the rule interval): NewTicker panics when the duration is not positive,
which kills the process, since the updater goroutine has no recover. -/
def newTickerStart (intervalMinutes : Nat) : Except String Unit :=
  if intervalMinutes == 0 then .error "non-positive interval for NewTicker"
  else .ok ()

/-! ### Extraction pipeline (extractEntity, loadNewsList)

htmlquery is an effectful XPath engine over fetched HTML; its outputs
are passed in: a fetched page is an Except (LoadURL result) carrying
the list of nodes that Find selects with the rule's news-nodes
expression, and each node carries the FindOne result for the link rule
and for the title rule. -/

/-- The observable part of an html.Node that FindOne returns: its
attributes and its concatenated inner text. -/
structure MatchedNode where
  attrs : List (String × String)
  innerText : String
deriving DecidableEq

/-- htmlquery.SelectAttr: the value of the named attribute, or "" when
the node does not have it. -/
def selectAttr (n : MatchedNode) (name : String) : String :=
  match n.attrs.find? fun a => a.1 == name with
  | some a => a.2
  | none => ""

/-- One item node selected by the news-nodes expression, carrying the
FindOne results for the two extraction rules. -/
structure NodeData where
  linkFound : Option MatchedNode
  titleFound : Option MatchedNode
deriving DecidableEq

/-- json.MarshalIndent(rule, "", "") for an ExtractRule, as logged in
the empty-result diagnostic; attr carries omitempty. -/
def marshalExtractRule (r : ExtractRule) : String :=
  if r.Attribute = "" then
    "\x7b\n\"expr\": " ++ goQuote r.XPathExpr ++ "\n\x7d"
  else
    "\x7b\n\"expr\": " ++ goQuote r.XPathExpr ++ ",\n\"attr\": " ++ goQuote r.Attribute ++ "\n\x7d"

/-- The diagnostic line that extractEntity logs for an empty result. -/
def extractEntityDiag (rule : ExtractRule) : String :=
  "The rule " ++ marshalExtractRule rule ++ " might be not working because returns empty result"

/-- main.go extractEntity: FindOne result in, extracted string out.
The second component records the log.Printf side effect: the
diagnostic emitted exactly when the result is empty. -/
def extractEntity (found : Option MatchedNode) (rule : ExtractRule) : String × Option String :=
  let result :=
    match found with
    | none => ""
    | some node =>
      if rule.Attribute != "" then selectAttr node rule.Attribute
      else node.innerText
  if result = "" then (result, some (extractEntityDiag rule))
  else (result, none)

/-- The loop body of loadNewsList over the selected nodes: extract the
link and title of each node, convert the link to absolute form, and
abort the whole batch on the first conversion error.  In Go the
multiple assignment link, err = convertToAbsURL(...) has already set
link to "" when err is non-nil, so the interpolated link in the error
text is empty. -/
def loadNewsItems (rule : ParsingRule) : List NodeData → Except String (List NewsItem)
  | [] => .ok []
  | n :: rest =>
    let link := (extractEntity n.linkFound rule.LinkRule).1
    let title := (extractEntity n.titleFound rule.TitleRule).1
    match convertToAbsURL rule.URL link with
    | .error e =>
      .error ("error converting link url " ++ "" ++ " to absolute url using base url "
        ++ rule.URL ++ ": " ++ e)
    | .ok absLink =>
      match loadNewsItems rule rest with
      | .error e => .error e
      | .ok items => .ok (⟨absLink, title⟩ :: items)

/-- main.go loadNewsList: a LoadURL failure propagates; otherwise the
selected nodes are processed in document order. -/
def loadNewsList (rule : ParsingRule) (fetched : Except String (List NodeData)) :
    Except String (List NewsItem) :=
  match fetched with
  | .error e => .error e
  | .ok nodes => loadNewsItems rule nodes

/-! ### Store (openDatabase schema, insertNewsItem, getNews)

The news table is a list of rows in insertion order.  now is the value
CURRENT_TIMESTAMP would assign. -/

/-- The INSERT INTO news(link, title) statement: the UNIQUE constraint
on link rejects a duplicate and leaves the table unchanged; otherwise a
row is appended with the current timestamp.  Returns the new table and
the SQLite error text, if any. -/
def sqlInsertNews (db : List DbRow) (link title : String) (now : Nat) :
    List DbRow × Option String :=
  if db.any fun r => r.link == link then
    (db, some "UNIQUE constraint failed: news.link")
  else (db ++ [⟨link, title, now⟩], none)

/-- main.go insertNewsItem: run the INSERT and wrap a failure in the
"Insert failed" message.  The first component is the table after the
call (unchanged when the second is some error). -/
def insertNewsItem (db : List DbRow) (item : NewsItem) (now : Nat) :
    List DbRow × Option String :=
  match sqlInsertNews db item.Link item.Title now with
  | (db2, none) => (db2, none)
  | (db2, some e) =>
    (db2, some ("Insert failed for link=\x27" ++ item.Link ++ "\x27, title=\x27"
      ++ item.Title ++ "\x27: " ++ e))

/-- SQLite instr(X, Y) needs a first-occurrence search; this is the
prefix test of that search. -/
def listStartsWith : List Char → List Char → Bool
  | _, [] => true
  | [], _ :: _ => false
  | a :: as, b :: bs => a == b && listStartsWith as bs

/-- Position (0-based) of the first occurrence of needle in hay. -/
def charsFind (needle : List Char) : List Char → Option Nat
  | [] => if listStartsWith [] needle then some 0 else none
  | a :: t =>
    if listStartsWith (a :: t) needle then some 0
    else (charsFind needle t).map fun i => i + 1

/-- SQLite instr(X, Y): 1-based position of the first occurrence of Y
in X, or 0 when Y does not occur. -/
def sqliteInstr (hay needle : String) : Nat :=
  match charsFind needle.data hay.data with
  | none => 0
  | some i => i + 1

/-- ORDER BY timestamp DESC: larger timestamps first. -/
def rowLe (a b : DbRow) : Prop :=
  b.timestamp ≤ a.timestamp

instance : DecidableRel rowLe := fun a b => Nat.decLe b.timestamp a.timestamp

instance : IsTotal DbRow rowLe := ⟨fun a b => le_total b.timestamp a.timestamp⟩

instance : IsTrans DbRow rowLe := ⟨fun _ _ _ hab hbc => le_trans hbc hab⟩

/-- The two SELECT statements getNews prepares. -/
inductive NewsQuery where
  | selectAll : NewsQuery
  | selectContains : NewsQuery
deriving DecidableEq

/-- sqlite3_bind_parameter_count of each statement. -/
def NewsQuery.numInput : NewsQuery → Nat
  | .selectAll => 0
  | .selectContains => 1

/-- Row semantics of the two statements: the WHERE instr(title, ?) <> 0
filter keeps rows whose title contains the argument, and ORDER BY
timestamp DESC sorts what remains. -/
def runNewsQuery (db : List DbRow) : NewsQuery → List String → List DbRow
  | .selectAll, _ => List.insertionSort rowLe db
  | .selectContains, args =>
    List.insertionSort rowLe
      (db.filter fun r => sqliteInstr r.title (args.headD "") != 0)

/-- Modelled from database/sql and the go-sqlite3 driver: the
connection-level query checks the statement's bind-parameter count
against the supplied arguments and fails without running when they
disagree (not enough args / too many args to execute query). -/
def dbQuery (db : List DbRow) (stmt : NewsQuery) (args : List String) :
    Except String (List DbRow) :=
  if args.length < stmt.numInput then
    .error ("not enough args to execute query: want " ++ toString stmt.numInput
      ++ " got " ++ toString args.length)
  else if stmt.numInput < args.length then
    .error ("too many args to execute query: want " ++ toString stmt.numInput
      ++ " got " ++ toString args.length)
  else .ok (runNewsQuery db stmt args)

/-- main.go getNews: choose the statement on whether the term is empty,
then always pass the term as the one query argument.  On success the
items slice started from make(..., 0), so it is non-nil. -/
def getNews (db : List DbRow) (query : String) : Except String (GoSlice NewsItem) :=
  let stmt := if query != "" then NewsQuery.selectContains else NewsQuery.selectAll
  match dbQuery db stmt [query] with
  | .error e => .error e
  | .ok rows => .ok (some (rows.map fun r => ⟨r.link, r.title⟩))

/-! ### Query service (searchHandler) -/

/-- What the handler writes back. -/
structure HttpResponse where
  status : Nat
  contentType : String
  body : String
deriving DecidableEq

/-- json.MarshalIndent(items, "", "") of one item. -/
def marshalNewsItem (it : NewsItem) : String :=
  "\x7b\n\"link\": " ++ goQuote it.Link ++ ",\n\"title\": " ++ goQuote it.Title ++ "\n\x7d"

/-- json.MarshalIndent(items, "", "") of the slice: a nil slice is the
JSON null, a non-nil empty slice is [], anything else an array. -/
def marshalItems : GoSlice NewsItem → String
  | none => "null"
  | some [] => "[]"
  | some (x :: xs) =>
    "[\n" ++ marshalNewsItem x
      ++ (xs.map fun it => ",\n" ++ marshalNewsItem it).foldl (fun a b => a ++ b) ""
      ++ "\n]"

/-- main.go searchHandler for a request whose form parsed, with q the
value of the q parameter ("" both when absent and when empty): a
getNews failure becomes a 500 with the error text (http.Error appends a
newline), success a 200 with the indented JSON and a trailing
newline. -/
def searchHandler (db : List DbRow) (q : String) : HttpResponse :=
  match getNews db q with
  | .error e => ⟨500, "text/plain; charset=utf-8", e ++ "\n"⟩
  | .ok items => ⟨200, "application/json", marshalItems items ++ "\n"⟩

/-! ### Scheduler (updateNews, updateNewsPeriodically) -/

/-- The observable outcome of one updateNews cycle: log.Fatal on a
loadNewsList error prints the error and calls os.Exit(1), ending the
whole process; otherwise the cycle runs every insert, logging the
per-item failures, and the table is updated. -/
inductive UpdateOutcome where
  | fatal (msg : String) : UpdateOutcome
  | done (logged : List String) (db : List DbRow) : UpdateOutcome
deriving DecidableEq

/-- main.go updateNews: one fetch-extract-store cycle against table db
at time now, with fetched the outcome of LoadURL + Find for this
rule. -/
def updateNews (rule : ParsingRule) (fetched : Except String (List NodeData))
    (db : List DbRow) (now : Nat) : UpdateOutcome :=
  match loadNewsList rule fetched with
  | .error e => .fatal e
  | .ok items =>
    let step := items.foldl
      (fun (acc : List DbRow × List String) item =>
        match insertNewsItem acc.1 item now with
        | (d, none) => (d, acc.2)
        | (d, some e) => (d, acc.2 ++ [e]))
      (db, [])
    .done step.2 step.1

/-! ### Fixtures used by the concrete theorems and witnesses -/

/-- A representative source rule: the base URL of the spec's
URL-normalization test. -/
def ruleEx : ParsingRule :=
  ⟨30, "http://example.com/news/index.html", "//div", ⟨".//a", "href"⟩, ⟨".//a", ""⟩⟩

/-- An item node whose link resolves. -/
def goodNode : NodeData := ⟨some ⟨[("href", "a/1")], "T1"⟩, some ⟨[], "T1"⟩⟩

/-- An item node whose raw link cannot be parsed (a leading colon is
the "missing protocol scheme" parse error). -/
def badNode : NodeData := ⟨some ⟨[("href", ":bad")], "T2"⟩, some ⟨[], "T2"⟩⟩

/-- An item node whose title rule matches nothing. -/
def noTitleNode : NodeData := ⟨some ⟨[("href", "a/1")], ""⟩, none⟩

/-- An item node whose link rule matches nothing (link extracts ""). -/
def noLinkNode : NodeData := ⟨none, some ⟨[], "T"⟩⟩

/-- An item that insert tests reuse. -/
def itemX : NewsItem := ⟨"http://example.com/news/a/1", "T1"⟩

/-- A small table for the search theorems. -/
def dbEx : List DbRow :=
  [⟨"l1", "alpha news", 3⟩, ⟨"l2", "beta", 7⟩, ⟨"l3", "more alpha", 5⟩]

/-- A rules document whose single entry has intervalMinutes zero and
every other field well-formed. -/
def zeroIntervalDoc : Json :=
  .arr [.obj
    [("intervalMinutes", .num 0), ("url", .str "http://example.com/"),
     ("newsNodesExpr", .str "//div"),
     ("linkRule", .obj [("expr", .str ".//a"), ("attr", .str "href")]),
     ("titleRule", .obj [("expr", .str ".//a")])]]

/-- A rules document whose interval field has the wrong type. -/
def wrongTypeDoc : Json :=
  .arr [.obj [("intervalMinutes", .str "ten"), ("url", .str "http://example.com/")]]

/-! ### Helper lemmas -/

/-- Appending strings appends their character data. -/
theorem strData_append (a b : String) : (a ++ b).data = a.data ++ b.data := by
  cases a
  cases b
  rfl

/-- Two strings with the same character data are equal. -/
theorem strEq_of_data {a b : String} (h : a.data = b.data) : a = b := by
  cases a
  cases b
  cases h
  rfl

/-- listStartsWith decides the existence of a completing suffix. -/
theorem listStartsWith_iff : ∀ hay needle : List Char,
    listStartsWith hay needle = true ↔ ∃ post, hay = needle ++ post
  | hay, [] => by
    constructor
    · intro _
      exact ⟨hay, rfl⟩
    · intro _
      cases hay <;> rfl
  | [], b :: bs => by
    simp [listStartsWith]
  | a :: as, b :: bs => by
    rw [listStartsWith, Bool.and_eq_true, beq_iff_eq, listStartsWith_iff as bs]
    constructor
    · rintro ⟨rfl, post, rfl⟩
      exact ⟨post, rfl⟩
    · rintro ⟨post, h⟩
      injection h with h1 h2
      exact ⟨h1, post, h2⟩

/-- charsFind succeeds exactly on substrings. -/
theorem charsFind_isSome_iff : ∀ needle hay : List Char,
    (charsFind needle hay).isSome = true ↔ ∃ pre post, hay = pre ++ needle ++ post
  | needle, [] => by
    constructor
    · intro h
      rw [charsFind] at h
      split at h
      · rename_i hs
        rcases (listStartsWith_iff [] needle).1 hs with ⟨post, hp⟩
        rcases List.append_eq_nil.1 hp.symm with ⟨h1, _⟩
        exact ⟨[], [], by simp [h1]⟩
      · simp at h
    · rintro ⟨pre, post, hp⟩
      have h2 : pre = [] ∧ needle = [] ∧ post = [] := by
        simpa [List.append_eq_nil, and_assoc] using hp.symm
      simp [charsFind, listStartsWith, h2.2.1]
  | needle, a :: t => by
    rw [charsFind]
    by_cases hs : listStartsWith (a :: t) needle = true
    · simp only [hs, if_true, Option.isSome_some, true_iff]
      rcases (listStartsWith_iff _ _).1 hs with ⟨post, hp⟩
      exact ⟨[], post, by simpa using hp⟩
    · have hmap : ((charsFind needle t).map fun i => i + 1).isSome
          = (charsFind needle t).isSome := by
        cases charsFind needle t <;> rfl
      rw [if_neg hs, hmap, charsFind_isSome_iff needle t]
      constructor
      · rintro ⟨pre, post, rfl⟩
        exact ⟨a :: pre, post, rfl⟩
      · rintro ⟨pre, post, hp⟩
        cases pre with
        | nil =>
          exfalso
          apply hs
          rw [listStartsWith_iff]
          exact ⟨post, by simpa using hp⟩
        | cons p ps =>
          injection hp with _ h2
          exact ⟨ps, post, h2⟩

/-- SQLite instr is nonzero exactly when the needle occurs in the hay,
stated with string concatenation. -/
theorem sqliteInstr_ne_zero_iff (title q : String) :
    sqliteInstr title q ≠ 0 ↔ ∃ pre post : String, title = pre ++ q ++ post := by
  constructor
  · intro h
    have hsome : (charsFind q.data title.data).isSome = true := by
      rw [sqliteInstr] at h
      cases hf : charsFind q.data title.data with
      | none => rw [hf] at h; simp at h
      | some i => simp
    rcases (charsFind_isSome_iff _ _).1 hsome with ⟨pre, post, hp⟩
    refine ⟨⟨pre⟩, ⟨post⟩, strEq_of_data ?_⟩
    rw [strData_append, strData_append]
    exact hp
  · rintro ⟨pre, post, hp⟩
    have hdata : title.data = pre.data ++ q.data ++ post.data := by
      rw [hp, strData_append, strData_append]
    have hsome : (charsFind q.data title.data).isSome = true :=
      (charsFind_isSome_iff _ _).2 ⟨pre.data, post.data, hdata⟩
    rw [sqliteInstr]
    cases hf : charsFind q.data title.data with
    | none => rw [hf] at hsome; simp at hsome
    | some i => simp

/-- MarshalIndent of a non-nil slice is never the JSON null. -/
theorem marshalItems_some_ne_null (l : List NewsItem) : marshalItems (some l) ≠ "null" := by
  cases l with
  | nil => decide
  | cons x xs =>
    intro h
    have hd : (marshalItems (some (x :: xs))).data = ("null" : String).data := by rw [h]
    rw [marshalItems] at hd
    rw [strData_append, strData_append, strData_append] at hd
    injection hd with h1 _
    exact absurd h1 (by decide)

/-! ### Claim theorems -/

/-- C1: the claim says a fetch or extraction failure in one cycle is
logged, the cycle ends early, and neither the task nor the process
terminates.  The code instead routes the loadNewsList error into
log.Fatal, which exits the whole process: the outcome of the cycle is
fatal for every rule, table state and time. -/
theorem updateNews_fetch_error_fatal :
    ∀ (rule : ParsingRule) (msg : String) (db : List DbRow) (now : Nat),
      updateNews rule (.error msg) db now = .fatal msg :=
  fun _ _ _ _ => rfl

/-- C2: the claim says an unresolvable link drops only its own item and
the siblings from the same page are still produced.  The code aborts
the whole cycle at the first bad link: with a good first node and a bad
second node the batch yields an error and no items at all, although the
good node alone yields its item. -/
theorem loadNewsList_bad_link_aborts_batch :
    loadNewsList ruleEx (.ok [goodNode, badNode]) =
      .error ("error converting link url  to absolute url using base url "
        ++ "http://example.com/news/index.html: parse \":bad\": missing protocol scheme")
    ∧ loadNewsList ruleEx (.ok [goodNode]) =
      .ok [⟨"http://example.com/news/a/1", "T1"⟩] := by
  constructor
  · rfl
  · rfl

/-- C3: the claim says an empty or absent term returns the whole corpus
ordered by firstSeen descending.  The code builds the no-placeholder
SELECT for an empty term but still passes the term as a bind argument,
so the store rejects the call before running it and getNews errors for
every table state (the endpoint answers 500, not the corpus). -/
theorem getNews_empty_query_errors :
    ∀ db : List DbRow,
      getNews db "" = .error "too many args to execute query: want 0 got 1" :=
  fun _ => rfl

/-- C4: for a non-empty term, getNews succeeds and returns exactly the
rows whose title contains the term as a substring, ordered by timestamp
(firstSeen) descending, projected to link and title. -/
theorem getNews_substring_filter (db : List DbRow) (q : String) (hq : q ≠ "") :
    getNews db q =
      .ok (some ((runNewsQuery db .selectContains [q]).map fun r => ⟨r.link, r.title⟩))
    ∧ List.Perm (runNewsQuery db .selectContains [q])
        (db.filter fun r => sqliteInstr r.title q != 0)
    ∧ List.Sorted rowLe (runNewsQuery db .selectContains [q])
    ∧ (∀ r : DbRow, sqliteInstr r.title q ≠ 0 ↔ ∃ pre post : String, r.title = pre ++ q ++ post) := by
  have hq2 : (q != "") = true := by simpa [bne_iff_ne] using hq
  refine ⟨?_, ?_, ?_, fun r => sqliteInstr_ne_zero_iff r.title q⟩
  · simp [getNews, dbQuery, hq2, NewsQuery.numInput]
  · simpa [runNewsQuery] using
      List.perm_insertionSort rowLe (db.filter fun r => sqliteInstr r.title q != 0)
  · simpa [runNewsQuery] using
      List.sorted_insertionSort rowLe (db.filter fun r => sqliteInstr r.title q != 0)

/-- C4 witness: the filter, order and success shape at a concrete
table and term. -/
theorem getNews_substring_filter_witness :
    getNews dbEx "alpha" =
      .ok (some ((runNewsQuery dbEx .selectContains ["alpha"]).map fun r => ⟨r.link, r.title⟩))
    ∧ List.Perm (runNewsQuery dbEx .selectContains ["alpha"])
        (dbEx.filter fun r => sqliteInstr r.title "alpha" != 0)
    ∧ List.Sorted rowLe (runNewsQuery dbEx .selectContains ["alpha"])
    ∧ (∀ r : DbRow, sqliteInstr r.title "alpha" ≠ 0
        ↔ ∃ pre post : String, r.title = pre ++ "alpha" ++ post) :=
  getNews_substring_filter dbEx "alpha" (by decide)

/-- C5: the claim says a duplicate insert reports "not inserted" as a
non-error outcome.  The first insert succeeds and the repeated insert
does leave exactly the one original row untouched, but it reports an
error (the wrapped UNIQUE-constraint failure), not a non-error
outcome. -/
theorem duplicate_insert_is_error :
    insertNewsItem [] itemX 5 = ([⟨"http://example.com/news/a/1", "T1", 5⟩], none)
    ∧ (insertNewsItem [⟨"http://example.com/news/a/1", "T1", 5⟩] itemX 9).2.isSome = true := by
  constructor
  · rfl
  · rfl

/-- C5 amended: inserting a fresh item succeeds and stores one row with
the insertion timestamp; repeating the insert leaves the table
untouched (same single row, original timestamp) and reports the
duplicate as an error, which the calling cycle merely logs. -/
theorem insert_idempotent_store (db : List DbRow) (x : NewsItem) (t0 t1 : Nat)
    (hfresh : ∀ r ∈ db, r.link ≠ x.Link) :
    (insertNewsItem db x t0).2 = none
    ∧ ((insertNewsItem db x t0).1.filter fun r => r.link == x.Link) = [⟨x.Link, x.Title, t0⟩]
    ∧ (insertNewsItem (insertNewsItem db x t0).1 x t1).1 = (insertNewsItem db x t0).1
    ∧ (insertNewsItem (insertNewsItem db x t0).1 x t1).2.isSome = true := by
  have hany : (db.any fun r => r.link == x.Link) = false := by
    rw [Bool.eq_false_iff]
    intro hc
    rcases List.any_eq_true.1 hc with ⟨r, hr, hb⟩
    exact hfresh r hr (by simpa using hb)
  have h1 : insertNewsItem db x t0 = (db ++ [⟨x.Link, x.Title, t0⟩], none) := by
    simp [insertNewsItem, sqlInsertNews, hany]
  have hfilter : (db.filter fun r => r.link == x.Link) = [] := by
    rw [List.filter_eq_nil_iff]
    intro r hr
    simpa using hfresh r hr
  have hany2 : ((db ++ [(⟨x.Link, x.Title, t0⟩ : DbRow)]).any fun r => r.link == x.Link) = true := by
    refine List.any_eq_true.2 ⟨(⟨x.Link, x.Title, t0⟩ : DbRow), ?_, ?_⟩
    · exact List.mem_append_right _ (List.mem_singleton.2 rfl)
    · simp
  refine ⟨by rw [h1], ?_, ?_, ?_⟩
  · rw [h1]
    simp only [List.filter_append, hfilter, List.nil_append]
    simp
  · rw [h1]
    simp [insertNewsItem, sqlInsertNews, hany2]
  · rw [h1]
    simp [insertNewsItem, sqlInsertNews, hany2]

/-- C5 amended witness: the idempotence at a concrete item, empty
table and timestamps 5 then 9. -/
theorem insert_idempotent_store_witness :
    (insertNewsItem [] itemX 5).2 = none
    ∧ ((insertNewsItem [] itemX 5).1.filter fun r => r.link == itemX.Link)
        = [⟨itemX.Link, itemX.Title, 5⟩]
    ∧ (insertNewsItem (insertNewsItem [] itemX 5).1 itemX 9).1 = (insertNewsItem [] itemX 5).1
    ∧ (insertNewsItem (insertNewsItem [] itemX 5).1 itemX 9).2.isSome = true :=
  insert_idempotent_store [] itemX 5 9 (by simp)

/-- C6: a raw link that parses with a scheme is kept verbatim whenever
the base also parses, and relative resolution matches the two RFC 3986
examples of the claim: article/1 against the news page merges the
paths, and an absolute link to another host is unchanged. -/
theorem convertToAbsURL_spec :
    (∀ linkURL baseURL u, urlParse linkURL = .ok u → u.scheme ≠ "" →
      (urlParse baseURL).isOk = true → convertToAbsURL baseURL linkURL = .ok linkURL)
    ∧ convertToAbsURL "http://example.com/news/index.html" "article/1"
        = .ok "http://example.com/news/article/1"
    ∧ convertToAbsURL "http://example.com/news/index.html" "http://other.com/x"
        = .ok "http://other.com/x" := by
  refine ⟨?_, rfl, rfl⟩
  intro linkURL baseURL u hl hs hb
  have hsb : (u.scheme != "") = true := by simpa [bne_iff_ne] using hs
  cases hbase : urlParse baseURL with
  | error e => rw [hbase] at hb; simp [Except.isOk, Except.toBool] at hb
  | ok b => simp [convertToAbsURL, hl, hbase, GoURL.isAbs, hsb]

/-- C6 witness: the verbatim case of the theorem applied at an
absolute mailto link (nonempty scheme) and the example base. -/
theorem convertToAbsURL_spec_witness :
    convertToAbsURL "http://example.com/news/index.html" "mailto:someone@example.org"
      = .ok "mailto:someone@example.org" :=
  convertToAbsURL_spec.1 "mailto:someone@example.org" "http://example.com/news/index.html"
    ⟨"mailto", "someone@example.org", "", "", "", ""⟩ rfl (by decide) rfl

/-- C7: the claim says rule loading fails on a zero intervalMinutes.
Decoding leaves the uint at its zero value without complaint: the
zero-interval document loads successfully, so the process does start
with such a rule set (the zero interval only later blows up the
updater's ticker). -/
theorem zero_interval_rules_load_ok :
    readParsingRules (some (.ok zeroIntervalDoc)) =
      .ok [some ⟨0, "http://example.com/", "//div", ⟨".//a", "href"⟩, ⟨".//a", ""⟩⟩] := rfl

/-- C7 amended: loading fails when the file is unreadable, when the
content is not syntactically valid JSON, and when a field or the
document has a wrong type; but a zero intervalMinutes is accepted (the
uint just stays zero) and the process starts, the zero interval later
making the updater's NewTicker panic. -/
theorem readParsingRules_behavior :
    (readParsingRules none).isOk = false
    ∧ (∀ e, readParsingRules (some (.error e))
        = .error ("error while reading parsing rules: " ++ e))
    ∧ (readParsingRules (some (.ok (.str "not an array")))).isOk = false
    ∧ (readParsingRules (some (.ok wrongTypeDoc))).isOk = false
    ∧ (readParsingRules (some (.ok zeroIntervalDoc))).isOk = true
    ∧ newTickerStart 0 = .error "non-positive interval for NewTicker" :=
  ⟨rfl, fun _ => rfl, rfl, rfl, rfl, rfl⟩

/-- C8: when a field rule matches no node the field extracts as the
empty string and the empty-result diagnostic naming the rule is
logged; the item is still produced (with its empty title) whenever its
link resolves. -/
theorem empty_extraction_advisory (rule : ParsingRule) (nd : NodeData) (absLink : String)
    (hTitle : nd.titleFound = none)
    (hLink : convertToAbsURL rule.URL (extractEntity nd.linkFound rule.LinkRule).1 = .ok absLink) :
    (extractEntity nd.titleFound rule.TitleRule).1 = ""
    ∧ (extractEntity nd.titleFound rule.TitleRule).2 = some (extractEntityDiag rule.TitleRule)
    ∧ loadNewsList rule (.ok [nd]) = .ok [⟨absLink, ""⟩] := by
  have ht : extractEntity nd.titleFound rule.TitleRule
      = ("", some (extractEntityDiag rule.TitleRule)) := by
    simp [hTitle, extractEntity]
  refine ⟨by rw [ht], by rw [ht], ?_⟩
  simp only [loadNewsList, loadNewsItems, hLink, ht]

/-- C8 witness: a node with a resolvable link and no title match still
yields its item, with the diagnostic logged for the title rule. -/
theorem empty_extraction_advisory_witness :
    (extractEntity noTitleNode.titleFound ruleEx.TitleRule).1 = ""
    ∧ (extractEntity noTitleNode.titleFound ruleEx.TitleRule).2
        = some (extractEntityDiag ruleEx.TitleRule)
    ∧ loadNewsList ruleEx (.ok [noTitleNode]) = .ok [⟨"http://example.com/news/a/1", ""⟩] :=
  empty_extraction_advisory ruleEx noTitleNode "http://example.com/news/a/1" rfl rfl

/-- C9: whenever getNews succeeds the returned slice is non-nil (it
began life as an empty non-nil slice), so the endpoint serializes an
array, [] for an empty result, and never the JSON null; the response is
a 200. -/
theorem getNews_success_nonnil (db : List DbRow) (q : String) (items : GoSlice NewsItem)
    (h : getNews db q = .ok items) :
    (∃ l, items = some l)
    ∧ marshalItems items ≠ "null"
    ∧ (searchHandler db q).status = 200
    ∧ (items = some [] → (searchHandler db q).body = "[]\n") := by
  rw [getNews] at h
  cases hdq : dbQuery db (if q != "" then NewsQuery.selectContains else NewsQuery.selectAll) [q] with
  | error e => rw [hdq] at h; cases h
  | ok rows =>
    rw [hdq] at h
    injection h with h
    have hgn : getNews db q = .ok items := by
      rw [getNews, hdq, ← h]
    have hsh : searchHandler db q
        = ⟨200, "application/json", marshalItems items ++ "\n"⟩ := by
      rw [searchHandler, hgn]
    refine ⟨⟨rows.map fun r => ⟨r.link, r.title⟩, h.symm⟩, ?_, ?_, ?_⟩
    · rw [← h]
      exact marshalItems_some_ne_null _
    · rw [hsh]
    · intro hnil
      rw [hsh, hnil]
      rfl

/-- C9 witness: a successful concrete search over an empty table
returns the non-nil empty slice and serializes as the empty array. -/
theorem getNews_success_nonnil_witness :
    (∃ l, (some ([] : List NewsItem) : GoSlice NewsItem) = some l)
    ∧ marshalItems (some ([] : List NewsItem)) ≠ "null"
    ∧ (searchHandler [] "a").status = 200
    ∧ ((some ([] : List NewsItem) : GoSlice NewsItem) = some [] → (searchHandler [] "a").body = "[]\n") :=
  getNews_success_nonnil [] "a" (some []) rfl

/-- C10: a link field that extracts empty does not make normalization
fail: the empty reference resolves to the page URL itself for a
well-formed hierarchical base (one that parses, reprints as itself and
has a dot-free path), so the item is produced and stored keyed by the
page URL. -/
theorem empty_link_resolves_to_page (rule : ParsingRule) (u : GoURL) (nd : NodeData) (now : Nat)
    (hp : urlParse rule.URL = .ok u)
    (hop : u.opq = "")
    (hs : urlString u = rule.URL)
    (hdot : resolvePath u.path "" = u.path)
    (hl : (extractEntity nd.linkFound rule.LinkRule).1 = "") :
    convertToAbsURL rule.URL "" = .ok rule.URL
    ∧ loadNewsList rule (.ok [nd])
        = .ok [⟨rule.URL, (extractEntity nd.titleFound rule.TitleRule).1⟩]
    ∧ updateNews rule (.ok [nd]) [] now
        = .done [] [⟨rule.URL, (extractEntity nd.titleFound rule.TitleRule).1, now⟩] := by
  obtain ⟨us, uo, uh, up, uq, uf⟩ := u
  simp only at hop
  subst hop
  have hpe : urlParse "" = Except.ok (⟨"", "", "", "", "", ""⟩ : GoURL) := rfl
  have hres : resolveReference ⟨us, "", uh, up, uq, uf⟩ ⟨"", "", "", "", "", ""⟩
      = ⟨us, "", uh, up, uq, uf⟩ := by
    simp [resolveReference, hdot]
  have key : convertToAbsURL rule.URL "" = .ok rule.URL := by
    rw [convertToAbsURL, hpe, hp]
    simp [GoURL.isAbs, hres, hs]
  refine ⟨key, ?_, ?_⟩
  · simp [loadNewsList, loadNewsItems, hl, key]
  · simp [updateNews, loadNewsList, loadNewsItems, hl, key, insertNewsItem, sqlInsertNews]

/-- C10 witness: a node with no link match against the example page
rule resolves to the page URL and is stored under it. -/
theorem empty_link_resolves_to_page_witness :
    convertToAbsURL ruleEx.URL "" = .ok ruleEx.URL
    ∧ loadNewsList ruleEx (.ok [noLinkNode])
        = .ok [⟨ruleEx.URL, (extractEntity noLinkNode.titleFound ruleEx.TitleRule).1⟩]
    ∧ updateNews ruleEx (.ok [noLinkNode]) [] 7
        = .done [] [⟨ruleEx.URL, (extractEntity noLinkNode.titleFound ruleEx.TitleRule).1, 7⟩] :=
  empty_link_resolves_to_page ruleEx
    ⟨"http", "", "example.com", "/news/index.html", "", ""⟩ noLinkNode 7 rfl rfl rfl rfl rfl

end NewsAggregator
